import Mathlib

set_option linter.unusedVariables false

/-! Shallow embedding of the tinycss core CSS parser (src/tinycss/core.py).
    Tokens come from the external tokenizer (tokenize_grouped), already
    grouped: container tokens carry their nested content.  Python
    exceptions are modelled by explicit error values: ParseError values
    for the ParseError class, plus the two non-ParseError exceptions this
    code can raise at runtime (StopIteration from next() on an exhausted
    iterator, and UnboundLocalError from reading a never-assigned loop
    variable).  Iterator consumption is modelled by functions returning
    the unconsumed remainder of the token list. -/

/-- Token as produced by the external tokenizer: a type tag, the semantic
value, the rendered css text (the as_css attribute), the nested content
(empty for non-container tokens), and the 1-based source position. -/
inductive Token where
  | mk (type value as_css : String) (content : List Token) (line column : Nat)
deriving Repr

def Token.type : Token → String
  | .mk t _ _ _ _ _ => t

def Token.value : Token → String
  | .mk _ v _ _ _ _ => v

def Token.as_css : Token → String
  | .mk _ _ c _ _ _ => c

def Token.content : Token → List Token
  | .mk _ _ _ c _ _ => c

def Token.line : Token → Nat
  | .mk _ _ _ _ l _ => l

def Token.column : Token → Nat
  | .mk _ _ _ _ _ c => c

/-- ParseError: the recoverable error class.  The subject (a token or a
rule) is collapsed to the position used in its message; the reason string
is kept verbatim. -/
structure ParseError where
  line : Nat
  column : Nat
  reason : String
deriving Repr, DecidableEq

/-- Exceptions that can propagate out of the embedded functions: a
ParseError, or one of the two non-ParseError runtime exceptions reachable
in parse_declaration (StopIteration from next() on an empty iterator,
UnboundLocalError from the for-else branch reading the loop variable
after a zero-iteration loop). -/
inductive PyErr where
  | parseError (e : ParseError)
  | stopIteration
  | unboundLocal
deriving Repr, DecidableEq

/-- Declaration: a property declaration; value is the synthetic VALUES
container token. -/
structure Declaration where
  name : String
  value : Token
  line : Nat
  column : Nat
deriving Repr

/-- AtRule: an unparsed at-rule with normalized at_keyword, head token
list, optional body block. -/
structure AtRule where
  at_keyword : String
  head : List Token
  body : Option Token
  line : Nat
  column : Nat
deriving Repr

/-- RuleSet: a selector container plus a declaration list. -/
structure RuleSet where
  selector : Token
  declarations : List Declaration
  line : Nat
  column : Nat
deriving Repr

/-- Rule: the two kinds of rule that appear in Stylesheet.rules. -/
inductive Rule where
  | atRule (r : AtRule)
  | ruleSet (r : RuleSet)
deriving Repr

/-- Rule.at_keyword: the discriminating attribute; the RuleSet class sets
it to None (here none), an AtRule stores its keyword string. -/
def Rule.at_keyword : Rule → Option String
  | .atRule r => some r.at_keyword
  | .ruleSet _ => none

/-- Stylesheet: rules plus recovered errors. -/
structure Stylesheet where
  rules : List Rule
  errors : List ParseError
deriving Repr

/-- pyLower models the Python str.lower() call: lower-case every
character. -/
def pyLower (s : String) : String :=
  ⟨s.data.map Char.toLower⟩

/-- isContainerType: the tuple ("FUNCTION", "(", "[") tested first in
validate_any. -/
def isContainerType (ty : String) : Bool :=
  ty == "FUNCTION" || ty == "(" || ty == "["

/-- anyBasic: the tuple of token types accepted directly by the any
production in validate_any. -/
def anyBasic (ty : String) : Bool :=
  ty == "S" || ty == "IDENT" || ty == "DIMENSION" || ty == "PERCENTAGE" ||
  ty == "NUMBER" || ty == "URI" || ty == "DELIM" || ty == "STRING" ||
  ty == "HASH" || ty == ":" || ty == "UNICODE-RANGE"

/-- closerType: the tuple ("\x7d", ")", "]") that selects the unmatched
adjective. -/
def closerType (ty : String) : Bool :=
  ty == "\x7d" || ty == ")" || ty == "]"

mutual
/-- validate_any from core.py: containers recurse over their content with
the container type as context; the listed basic types pass; anything else
raises a ParseError whose adjective is unmatched for closing delimiters
and unexpected otherwise. -/
def validate_any : Token → String → Except ParseError Unit
  | .mk ty _ _ content line col, context =>
    if isContainerType ty then
      validate_any_list content ty
    else if anyBasic ty then
      .ok ()
    else
      .error ⟨line, col,
        (if closerType ty then "unmatched" else "unexpected") ++ " " ++ ty
          ++ " token in " ++ context⟩

/-- validate_any_list: the for-loop over a token list calling validate_any
with a fixed context; the first failure propagates. -/
def validate_any_list : List Token → String → Except ParseError Unit
  | [], _ => .ok ()
  | t :: ts, ctx => do
    validate_any t ctx
    validate_any_list ts ctx
end

/-- validate_block from core.py: a nested brace block recurses into
validate_block, semicolons and at-keywords are permitted, everything else
must pass validate_any. -/
def validate_block : List Token → String → Except ParseError Unit
  | [], _ => .ok ()
  | .mk ty v css content l c :: ts, ctx => do
    if ty = "\x7b" then
      validate_block content ctx
    else if ty = ";" ∨ ty = "ATKEYWORD" then
      pure ()
    else
      validate_any (.mk ty v css content l c) ctx
    validate_block ts ctx

/-- value_validation: the validation step applied by parse_value to one
kept token: brace blocks through validate_block, the rest through
validate_any. -/
def value_validation (t : Token) : Except ParseError Unit :=
  if t.type = "\x7b" then
    validate_block t.content "property value"
  else
    validate_any t "property value"

/-- parse_value loop from core.py: skip leading white space, validate each
remaining token and accumulate it. -/
def parse_value_loop : List Token → List Token → Except ParseError (List Token)
  | [], content => .ok content
  | t :: ts, content =>
    if content.isEmpty ∧ t.type = "S" then
      parse_value_loop ts content
    else do
      value_validation t
      parse_value_loop ts (content ++ [t])

/-- dropTrailingWS: the final while-pop loop of parse_value removing
trailing white space tokens. -/
def dropTrailingWS (l : List Token) : List Token :=
  (l.reverse.dropWhile (fun t => t.type == "S")).reverse

/-- parse_value from core.py: validate and collect the value tokens, with
white space trimmed at both ends but kept in the middle. -/
def parse_value (tokens : List Token) : Except ParseError (List Token) :=
  (parse_value_loop tokens []).map dropTrailingWS

/-- after_colon: the tail of parse_declaration once the colon (the token
argument) was found: parse the value, reject an empty one, and wrap the
result in the synthetic VALUES container positioned at its first token. -/
def after_colon (property_name : String) (name_token colon : Token)
    (ts : List Token) : Except PyErr Declaration :=
  match parse_value ts with
  | .error e => .error (.parseError e)
  | .ok [] =>
    .error (.parseError ⟨colon.line, colon.column, "expected a property value"⟩)
  | .ok (v :: vs) =>
    .ok ⟨property_name, .mk "VALUES" "" "" (v :: vs) v.line v.column,
         name_token.line, name_token.column⟩

/-- find_colon: the for-loop of parse_declaration scanning for the colon
after the property name.  The bound flag records whether the loop variable
token was ever assigned: on a zero-iteration loop the for-else branch
evaluates the unassigned variable and raises UnboundLocalError. -/
def find_colon (property_name : String) (name_token last : Token)
    (bound : Bool) : List Token → Except PyErr Declaration
  | [] =>
    if bound then
      .error (.parseError ⟨last.line, last.column, "expected \x27:\x27"⟩)
    else
      .error .unboundLocal
  | t :: ts =>
    if t.type = ":" then
      after_colon property_name name_token t ts
    else if t.type = "S" then
      find_colon property_name name_token t true ts
    else
      .error (.parseError
        ⟨t.line, t.column, "expected \x27:\x27, got " ++ t.type⟩)

/-- parse_declaration from core.py: next() on an empty stream raises
StopIteration; a non-identifier first token raises ParseError; then the
colon scan and parse_value follow. -/
def parse_declaration : List Token → Except PyErr Declaration
  | [] => .error .stopIteration
  | name_token :: rest =>
    if name_token.type = "IDENT" then
      find_colon (pyLower name_token.value) name_token name_token false rest
    else
      .error (.parseError ⟨name_token.line, name_token.column,
        "expected a property name, got " ++ name_token.type⟩)

/-- split_parts: the first loop of parse_declaration_list, splitting on
top-level semicolons, skipping white space at the start of each part and
dropping empty parts; the accumulator is the this_part list. -/
def split_parts : List Token → List Token → List (List Token)
  | [], this_part => if this_part.isEmpty then [] else [this_part]
  | t :: ts, this_part =>
    if t.type = ";" then
      if this_part.isEmpty then split_parts ts []
      else this_part :: split_parts ts []
    else if this_part.isEmpty ∧ t.type = "S" then
      split_parts ts []
    else
      split_parts ts (this_part ++ [t])

/-- process_parts: the second loop of parse_declaration_list, parsing each
part and catching only ParseError (other exceptions propagate). -/
def process_parts : List (List Token) → Except PyErr (List Declaration × List ParseError)
  | [] => .ok ([], [])
  | p :: ps =>
    match parse_declaration p with
    | .ok d =>
      match process_parts ps with
      | .ok (ds, es) => .ok (d :: ds, es)
      | .error err => .error err
    | .error (.parseError e) =>
      match process_parts ps with
      | .ok (ds, es) => .ok (ds, e :: es)
      | .error err => .error err
    | .error err => .error err

/-- parse_declaration_list from core.py: split at semicolons, then parse
each part independently. -/
def parse_declaration_list (tokens : List Token) :
    Except PyErr (List Declaration × List ParseError) :=
  process_parts (split_parts tokens [])

/-- parse_style_attr from core.py, with the external tokenize_grouped
elided: the token stream goes straight to parse_declaration_list. -/
def parse_style_attr (tokens : List Token) :
    Except PyErr (List Declaration × List ParseError) :=
  parse_declaration_list tokens

/-- read_at_rule loop from core.py: consume until a brace block or a
semicolon (the Python membership test type in "\x7b;"), dropping white
space only while the head is still empty; at the terminator the whole head
is validated; an exhausted stream raises an incomplete at-rule error at
the last token read (the at-keyword token when nothing was read).  The
second component is the unconsumed remainder of the stream. -/
def read_at_rule_loop (at_keyword_token : Token) (at_keyword : String)
    (head : List Token) (last : Token) :
    List Token → (Except ParseError AtRule) × List Token
  | [] => (.error ⟨last.line, last.column, "incomplete at-rule"⟩, [])
  | t :: ts =>
    if t.type = "\x7b" ∨ t.type = ";" then
      match validate_any_list head "at-rule head" with
      | .error e => (.error e, ts)
      | .ok _ =>
        (.ok ⟨at_keyword, head,
              (if t.type = "\x7b" then some t else none),
              at_keyword_token.line, at_keyword_token.column⟩, ts)
    else if head.isEmpty ∧ t.type = "S" then
      read_at_rule_loop at_keyword_token at_keyword head t ts
    else
      read_at_rule_loop at_keyword_token at_keyword (head ++ [t]) t ts

/-- read_at_rule from core.py: lower-case the at-keyword and run the
consuming loop. -/
def read_at_rule (at_keyword_token : Token) (tokens : List Token) :
    (Except ParseError AtRule) × List Token :=
  read_at_rule_loop at_keyword_token (pyLower at_keyword_token.value) []
    at_keyword_token tokens

/-- parse_ruleset loop from core.py: accumulate selector tokens until the
first top-level brace block, then validate the selector, wrap it in a
synthetic SELECTOR container (positioned at its first token, or at the
block when empty) and parse the block content as declarations; an
exhausted stream raises the no-declaration-block error at the last token
read.  The second component is the unconsumed remainder. -/
def parse_ruleset_loop (first_token : Token) (selector_parts : List Token)
    (last : Token) :
    List Token → (Except PyErr (RuleSet × List ParseError)) × List Token
  | [] =>
    (.error (.parseError
       ⟨last.line, last.column, "no declaration block found for ruleset"⟩), [])
  | t :: ts =>
    if t.type = "\x7b" then
      match validate_any_list selector_parts "selector" with
      | .error e => (.error (.parseError e), ts)
      | .ok _ =>
        let start := selector_parts.headD t
        let selector : Token :=
          .mk "SELECTOR" "" "" selector_parts start.line start.column
        match parse_declaration_list t.content with
        | .error err => (.error err, ts)
        | .ok (declarations, errors) =>
          (.ok (⟨selector, declarations,
                 first_token.line, first_token.column⟩, errors), ts)
    else
      parse_ruleset_loop first_token (selector_parts ++ [t]) t ts

/-- parse_ruleset from core.py: the loop runs on the chain of the first
token and the remaining stream. -/
def parse_ruleset (first_token : Token) (tokens : List Token) :
    (Except PyErr (RuleSet × List ParseError)) × List Token :=
  parse_ruleset_loop first_token [] first_token (first_token :: tokens)

/-- charsetHeadOK: the head/body test of the @charset branch of
parse_at_rule: exactly one double-quoted STRING token and no body.  The
Python read of the first rendered character, head[0].as_css[0], is
modelled as the head of the character list (the tokenizer never yields an
empty rendered text, so the IndexError branch is unreachable). -/
def charsetHeadOK (rule : AtRule) : Bool :=
  match rule.head with
  | [t] => t.type == "STRING" && (t.as_css.data.head? == some '"') && rule.body.isNone
  | _ => false

/-- parse_at_rule from core.py (the CoreParser method, the only handler in
the chain): @charset must be at 1:1 with a valid head, any deviation
raises; every other at-keyword is not handled (returns false). -/
def parse_at_rule (rule : AtRule) : Except ParseError Bool :=
  if rule.at_keyword = "@charset" then
    if rule.line = 1 ∧ rule.column = 1 then
      if charsetHeadOK rule then
        .ok true
      else
        .error ⟨rule.line, rule.column, "invalid @charset rule"⟩
    else
      .error ⟨rule.line, rule.column,
        "@charset rule not at the beginning of the stylesheet"⟩
  else
    .ok false

/-- consError: the errors.append(e) recovery of the driver loop, keeping
the rules of the remaining result and putting the caught error before the
errors found later. -/
def consError (e : ParseError)
    (r : Except PyErr (List Rule × List ParseError)) :
    Except PyErr (List Rule × List ParseError) :=
  match r with
  | .ok (rules, errors) => .ok (rules, e :: errors)
  | .error err => .error err

/-- parse_rules loop from core.py, with explicit fuel (one unit per token
consumed; the Python loop terminates because every iteration consumes at
least one token, and the fuel is chosen to be the stream length so the
zero-fuel branch is unreachable).  Top-level white space and the two
legacy comment delimiter types are skipped; an at-keyword goes through
read_at_rule and then the handler chain (here the single CoreParser
handler): a handled rule adds nothing, an unhandled one records the
unknown at-rule error, a ParseError from the handler or from read_at_rule
is caught and recorded.  Any other token starts a ruleset; its rule is
appended and its declaration errors extend the error list; a ParseError
from parse_ruleset is caught and recorded.  Non-ParseError exceptions
propagate. -/
def parse_rules_fuel : Nat → List Token → Except PyErr (List Rule × List ParseError)
  | _, [] => .ok ([], [])
  | 0, _ :: _ => .ok ([], [])
  | fuel + 1, t :: ts =>
    if t.type = "S" ∨ t.type = "CDO" ∨ t.type = "CDC" then
      parse_rules_fuel fuel ts
    else if t.type = "ATKEYWORD" then
      match read_at_rule t ts with
      | (.ok rule, rest) =>
        match parse_at_rule rule with
        | .ok true => parse_rules_fuel fuel rest
        | .ok false =>
          consError ⟨rule.line, rule.column,
            "unknown at-rule: " ++ rule.at_keyword⟩ (parse_rules_fuel fuel rest)
        | .error e => consError e (parse_rules_fuel fuel rest)
      | (.error e, rest) => consError e (parse_rules_fuel fuel rest)
    else
      match parse_ruleset t ts with
      | (.ok (rule, rule_errors), rest) =>
        match parse_rules_fuel fuel rest with
        | .ok (rules, errors) => .ok (.ruleSet rule :: rules, rule_errors ++ errors)
        | .error err => .error err
      | (.error (.parseError e), rest) => consError e (parse_rules_fuel fuel rest)
      | (.error err, _) => .error err

/-- parse_rules from core.py: run the driver loop with sufficient fuel. -/
def parse_rules (tokens : List Token) :
    Except PyErr (List Rule × List ParseError) :=
  parse_rules_fuel tokens.length tokens

/-- parse_stylesheet from core.py, with the external tokenize_grouped
elided: build a Stylesheet from parse_rules on the grouped token
stream. -/
def parse_stylesheet (tokens : List Token) : Except PyErr Stylesheet :=
  match parse_rules tokens with
  | .ok (rules, errors) => .ok ⟨rules, errors⟩
  | .error err => .error err

/-! Helper lemmas shared by several claims. -/

theorem except_ok_bind {ε α β : Type} (a : α) (f : α → Except ε β) :
    (Except.ok a >>= f) = f a := rfl

theorem except_error_bind {ε α β : Type} (e : ε) (f : α → Except ε β) :
    (Except.error e >>= f : Except ε β) = Except.error e := rfl

mutual
/-- specAnyOK: the any production as the specification states it: the type
is one of the eleven basic types, or the token is a function,
parenthesized-group or bracketed-group container all of whose content
tokens recursively satisfy the production. -/
def specAnyOK : Token → Bool
  | .mk ty _ _ content _ _ =>
    if isContainerType ty then specAnyListOK content else anyBasic ty

/-- specAnyListOK: every token of the list satisfies specAnyOK. -/
def specAnyListOK : List Token → Bool
  | [] => true
  | t :: ts => specAnyOK t && specAnyListOK ts
end

mutual
theorem validate_any_ok_iff : ∀ (t : Token) (ctx : String),
    validate_any t ctx = Except.ok () ↔ specAnyOK t = true
  | .mk ty v css content line col, ctx => by
    simp only [validate_any, specAnyOK]
    split
    · exact validate_any_list_ok_iff content ty
    · split <;> simp_all

theorem validate_any_list_ok_iff : ∀ (l : List Token) (ctx : String),
    validate_any_list l ctx = Except.ok () ↔ specAnyListOK l = true
  | [], ctx => by simp [validate_any_list, specAnyListOK]
  | t :: ts, ctx => by
    simp only [validate_any_list, specAnyListOK, Bool.and_eq_true]
    cases h : validate_any t ctx with
    | ok u =>
      cases u
      rw [except_ok_bind]
      rw [validate_any_list_ok_iff ts ctx]
      have := (validate_any_ok_iff t ctx).mp h
      simp [this]
    | error e =>
      rw [except_error_bind]
      have : ¬ specAnyOK t = true := by
        intro hok
        rw [← validate_any_ok_iff t ctx] at hok
        rw [h] at hok
        exact Except.noConfusion hok
      simp [this]
end

mutual
theorem validate_any_err : ∀ (t : Token) (ctx : String) (e : ParseError),
    validate_any t ctx = Except.error e →
    ∃ fty fctx, anyBasic fty = false ∧ isContainerType fty = false ∧
      e.reason = (if closerType fty then "unmatched" else "unexpected")
        ++ " " ++ fty ++ " token in " ++ fctx
  | .mk ty v css content line col, ctx, e => by
    simp only [validate_any]
    split
    · exact fun h => validate_any_list_err content ty e h
    · split
      · intro h
        exact Except.noConfusion h
      · intro h
        injection h with h2
        rename_i hcont hbasic
        refine ⟨ty, ctx, ?_, ?_, ?_⟩
        · simpa using hbasic
        · simpa using hcont
        · rw [← h2]

theorem validate_any_list_err : ∀ (l : List Token) (ctx : String) (e : ParseError),
    validate_any_list l ctx = Except.error e →
    ∃ fty fctx, anyBasic fty = false ∧ isContainerType fty = false ∧
      e.reason = (if closerType fty then "unmatched" else "unexpected")
        ++ " " ++ fty ++ " token in " ++ fctx
  | [], ctx, e => by
    intro h
    exact Except.noConfusion h
  | t :: ts, ctx, e => by
    simp only [validate_any_list]
    cases h : validate_any t ctx with
    | ok u =>
      cases u
      rw [except_ok_bind]
      exact fun hh => validate_any_list_err ts ctx e hh
    | error e2 =>
      rw [except_error_bind]
      intro hh
      injection hh with hh
      exact hh ▸ validate_any_err t ctx e2 h
end

theorem seq_ok_iff {ε : Type} (x y : Except ε Unit) :
    (x >>= fun _ => y) = Except.ok () ↔ (x = Except.ok () ∧ y = Except.ok ()) := by
  cases x with
  | ok u => cases u; rw [except_ok_bind]; simp
  | error e => rw [except_error_bind]; simp

/-- blockOK: the block production as the specification states it, as a
boolean predicate: nested brace blocks recurse, semicolons and at-keywords
pass, everything else must satisfy the any production. -/
def blockOK : List Token → Bool
  | [] => true
  | .mk ty v css content l c :: ts =>
    (if ty = "\x7b" then blockOK content
     else if ty = ";" ∨ ty = "ATKEYWORD" then true
     else specAnyOK (.mk ty v css content l c)) && blockOK ts

theorem validate_block_ok_iff : ∀ (l : List Token) (ctx : String),
    validate_block l ctx = Except.ok () ↔ blockOK l = true
  | [], ctx => by simp [validate_block, blockOK]
  | .mk ty v css content line col :: ts, ctx => by
    simp only [validate_block, blockOK, Bool.and_eq_true]
    by_cases hb : ty = "\x7b" <;>
      by_cases hsa : (ty = ";" ∨ ty = "ATKEYWORD") <;>
        simp [hb, hsa, seq_ok_iff, validate_block_ok_iff content ctx,
          validate_block_ok_iff ts ctx, validate_any_ok_iff,
          pure, Except.pure]

/-- valueTokenOK: what parse_value requires of a single (non-skipped)
value token: brace blocks must satisfy the block production, everything
else the any production. -/
def valueTokenOK (t : Token) : Bool :=
  if t.type = "\x7b" then blockOK t.content else specAnyOK t

theorem value_validation_ok (t : Token) (h : valueTokenOK t = true) :
    value_validation t = Except.ok () := by
  unfold valueTokenOK at h
  unfold value_validation
  by_cases hb : t.type = "\x7b"
  · rw [if_pos hb] at h ⊢
    exact (validate_block_ok_iff t.content "property value").mpr h
  · rw [if_neg hb] at h ⊢
    exact (validate_any_ok_iff t "property value").mpr h

/-- stripLeadWS: the leading white space skipped by parse_value and by the
declaration-list splitter. -/
def stripLeadWS (l : List Token) : List Token :=
  l.dropWhile (fun t => t.type == "S")

/-- trimWS: both trims of parse_value: outer white space removed, interior
white space kept. -/
def trimWS (l : List Token) : List Token :=
  dropTrailingWS (stripLeadWS l)

theorem parse_value_loop_acc : ∀ (l acc : List Token),
    (∀ t ∈ l, valueTokenOK t = true) → acc ≠ [] →
    parse_value_loop l acc = Except.ok (acc ++ l)
  | [], acc, _, _ => by simp [parse_value_loop]
  | t :: ts, acc, hval, hacc => by
    have hne : ¬ (acc.isEmpty ∧ t.type = "S") := by
      intro hcon
      exact hacc (List.isEmpty_iff.mp hcon.1)
    rw [parse_value_loop, if_neg hne,
      value_validation_ok t (hval t (by simp)), except_ok_bind,
      parse_value_loop_acc ts (acc ++ [t])
        (fun x hx => hval x (by simp [hx])) (by simp)]
    simp

theorem parse_value_loop_nil : ∀ (l : List Token),
    (∀ t ∈ l, valueTokenOK t = true) →
    parse_value_loop l [] = Except.ok (stripLeadWS l)
  | [], _ => by simp [parse_value_loop, stripLeadWS]
  | t :: ts, hval => by
    by_cases hS : t.type = "S"
    · rw [parse_value_loop, if_pos (by simp [hS]),
        parse_value_loop_nil ts (fun x hx => hval x (by simp [hx]))]
      simp [stripLeadWS, List.dropWhile, hS]
    · rw [parse_value_loop, if_neg (by simp [hS]),
        value_validation_ok t (hval t (by simp)), except_ok_bind,
        parse_value_loop_acc ts ([] ++ [t])
          (fun x hx => hval x (by simp [hx])) (by simp)]
      have hb : (t.type == "S") = false := by simp [hS]
      simp [stripLeadWS, List.dropWhile, hb]

theorem parse_value_all_ok (l : List Token)
    (hval : ∀ t ∈ l, valueTokenOK t = true) :
    parse_value l = Except.ok (trimWS l) := by
  rw [parse_value, parse_value_loop_nil l hval]
  rfl

theorem split_parts_sep : ∀ (a : List Token) (sep : Token) (b acc : List Token),
    sep.type = ";" →
    split_parts (a ++ sep :: b) acc = split_parts a acc ++ split_parts b []
  | [], sep, b, acc, hsep => by
    by_cases hacc : acc.isEmpty <;>
      simp [split_parts, hsep, hacc]
  | t :: a, sep, b, acc, hsep => by
    rw [List.cons_append, split_parts, split_parts]
    by_cases h1 : t.type = ";"
    · rw [if_pos h1, if_pos h1]
      by_cases hacc : acc.isEmpty
      · rw [if_pos hacc, if_pos hacc, split_parts_sep a sep b [] hsep]
      · rw [if_neg hacc, if_neg hacc, split_parts_sep a sep b [] hsep]
        simp
    · rw [if_neg h1, if_neg h1]
      by_cases h2 : acc.isEmpty ∧ t.type = "S"
      · rw [if_pos h2, if_pos h2, split_parts_sep a sep b [] hsep]
      · rw [if_neg h2, if_neg h2, split_parts_sep a sep b (acc ++ [t]) hsep]

theorem split_parts_all_ws : ∀ (l : List Token), (∀ t ∈ l, t.type = "S") →
    split_parts l [] = []
  | [], _ => by simp [split_parts]
  | t :: ts, h => by
    have hS : t.type = "S" := h t (by simp)
    simp [split_parts, hS,
      split_parts_all_ws ts (fun x hx => h x (by simp [hx]))]

theorem split_parts_nosemi : ∀ (l acc : List Token),
    (∀ t ∈ l, t.type ≠ ";") → acc ≠ [] →
    split_parts l acc = [acc ++ l]
  | [], acc, _, hacc => by
    simp [split_parts, List.isEmpty_iff, hacc]
  | t :: ts, acc, h, hacc => by
    have h1 : t.type ≠ ";" := h t (by simp)
    have h2 : ¬ (acc.isEmpty ∧ t.type = "S") := by
      intro hcon
      exact hacc (List.isEmpty_iff.mp hcon.1)
    rw [split_parts, if_neg h1, if_neg h2,
      split_parts_nosemi ts (acc ++ [t])
        (fun x hx => h x (by simp [hx])) (by simp)]
    simp

theorem process_parts_append_ok : ∀ (P Q : List (List Token))
    (d1 d2 : List Declaration) (e1 e2 : List ParseError),
    process_parts P = Except.ok (d1, e1) →
    process_parts Q = Except.ok (d2, e2) →
    process_parts (P ++ Q) = Except.ok (d1 ++ d2, e1 ++ e2)
  | [], Q, d1, d2, e1, e2, h1, h2 => by
    rw [process_parts] at h1
    injection h1 with h1
    injection h1 with hd he
    subst hd
    subst he
    simpa using h2
  | p :: P, Q, d1, d2, e1, e2, h1, h2 => by
    rw [process_parts] at h1
    rw [List.cons_append, process_parts]
    cases hd : parse_declaration p with
    | ok d =>
      rw [hd] at h1
      cases hP : process_parts P with
      | ok pair =>
        obtain ⟨ds, es⟩ := pair
        rw [hP] at h1
        injection h1 with h1
        injection h1 with hd1 he1
        subst hd1
        subst he1
        rw [process_parts_append_ok P Q ds d2 es e2 hP h2]
        simp
      | error err =>
        rw [hP] at h1
        exact Except.noConfusion h1
    | error err =>
      cases err with
      | parseError e =>
        rw [hd] at h1
        cases hP : process_parts P with
        | ok pair =>
          obtain ⟨ds, es⟩ := pair
          rw [hP] at h1
          injection h1 with h1
          injection h1 with hd1 he1
          subst hd1
          subst he1
          rw [process_parts_append_ok P Q ds d2 es e2 hP h2]
          simp
        | error err2 =>
          rw [hP] at h1
          exact Except.noConfusion h1
      | stopIteration =>
        rw [hd] at h1
        exact Except.noConfusion h1
      | unboundLocal =>
        rw [hd] at h1
        exact Except.noConfusion h1

theorem parse_declaration_list_sep (a : List Token) (sep : Token)
    (b : List Token) (d1 d2 : List Declaration) (e1 e2 : List ParseError)
    (hsep : sep.type = ";")
    (h1 : parse_declaration_list a = Except.ok (d1, e1))
    (h2 : parse_declaration_list b = Except.ok (d2, e2)) :
    parse_declaration_list (a ++ sep :: b) = Except.ok (d1 ++ d2, e1 ++ e2) := by
  unfold parse_declaration_list at h1 h2 ⊢
  rw [split_parts_sep a sep b [] hsep]
  exact process_parts_append_ok _ _ d1 d2 e1 e2 h1 h2

theorem parse_declaration_list_all_ws (l : List Token)
    (h : ∀ t ∈ l, t.type = "S") :
    parse_declaration_list l = Except.ok ([], []) := by
  unfold parse_declaration_list
  rw [split_parts_all_ws l h]
  rfl

theorem find_colon_ws : ∀ (ws : List Token), (∀ t ∈ ws, t.type = "S") →
    ∀ (p : String) (n last : Token) (b : Bool) (colon : Token)
      (rest : List Token), colon.type = ":" →
    find_colon p n last b (ws ++ colon :: rest) = after_colon p n colon rest
  | [], _, p, n, last, b, colon, rest, hc => by
    simp [find_colon, hc]
  | w :: ws, h, p, n, last, b, colon, rest, hc => by
    have hw : w.type = "S" := h w (by simp)
    rw [List.cons_append, find_colon, if_neg (by simp [hw]), if_pos hw]
    exact find_colon_ws ws (fun x hx => h x (by simp [hx])) p n w true colon rest hc

theorem read_at_rule_loop_rest_le : ∀ (l : List Token) (at_tok : Token)
    (kw : String) (head : List Token) (last : Token),
    (read_at_rule_loop at_tok kw head last l).2.length ≤ l.length
  | [], _, _, _, _ => by simp [read_at_rule_loop]
  | t :: ts, at_tok, kw, head, last => by
    rw [read_at_rule_loop]
    by_cases h1 : t.type = "\x7b" ∨ t.type = ";"
    · rw [if_pos h1]
      cases hv : validate_any_list head "at-rule head" with
      | ok u => exact Nat.le_succ ts.length
      | error e => exact Nat.le_succ ts.length
    · rw [if_neg h1]
      by_cases h2 : head.isEmpty ∧ t.type = "S"
      · rw [if_pos h2]
        exact le_trans (read_at_rule_loop_rest_le ts at_tok kw head t)
          (Nat.le_succ ts.length)
      · rw [if_neg h2]
        exact le_trans (read_at_rule_loop_rest_le ts at_tok kw (head ++ [t]) t)
          (Nat.le_succ ts.length)

theorem read_at_rule_rest_le (t : Token) (ts : List Token) :
    (read_at_rule t ts).2.length ≤ ts.length :=
  read_at_rule_loop_rest_le ts t (pyLower t.value) [] t

theorem parse_ruleset_loop_rest_le : ∀ (l : List Token) (first : Token)
    (sel : List Token) (last : Token),
    (parse_ruleset_loop first sel last l).2.length ≤ l.length
  | [], _, _, _ => by simp [parse_ruleset_loop]
  | t :: ts, first, sel, last => by
    rw [parse_ruleset_loop]
    by_cases h1 : t.type = "\x7b"
    · rw [if_pos h1]
      cases hv : validate_any_list sel "selector" with
      | error e => exact Nat.le_succ ts.length
      | ok u =>
        cases u
        cases hd : parse_declaration_list t.content with
        | error err => exact Nat.le_succ ts.length
        | ok pair => exact Nat.le_succ ts.length
    · rw [if_neg h1]
      exact le_trans (parse_ruleset_loop_rest_le ts first (sel ++ [t]) t)
        (Nat.le_succ ts.length)

theorem parse_ruleset_rest_le (t : Token) (ts : List Token) :
    (parse_ruleset t ts).2.length ≤ ts.length := by
  unfold parse_ruleset
  rw [parse_ruleset_loop]
  by_cases h1 : t.type = "\x7b"
  · rw [if_pos h1]
    cases hv : validate_any_list [] "selector" with
    | error e => exact le_refl ts.length
    | ok u =>
      cases u
      cases hd : parse_declaration_list t.content with
      | error err => exact le_refl ts.length
      | ok pair => exact le_refl ts.length
  · rw [if_neg h1]
    exact parse_ruleset_loop_rest_le ts t ([] ++ [t]) t

theorem parse_rules_fuel_mono : ∀ (f1 : Nat) (l : List Token) (f2 : Nat),
    l.length ≤ f1 → l.length ≤ f2 →
    parse_rules_fuel f1 l = parse_rules_fuel f2 l
  | _, [], _, _, _ => by simp [parse_rules_fuel]
  | 0, t :: ts, f2, h1, h2 => by simp at h1
  | f1 + 1, t :: ts, 0, h1, h2 => by simp at h2
  | f1 + 1, t :: ts, f2 + 1, h1, h2 => by
    have hts1 : ts.length ≤ f1 := by simpa using h1
    have hts2 : ts.length ≤ f2 := by simpa using h2
    rw [parse_rules_fuel, parse_rules_fuel]
    by_cases hskip : t.type = "S" ∨ t.type = "CDO" ∨ t.type = "CDC"
    · rw [if_pos hskip, if_pos hskip]
      exact parse_rules_fuel_mono f1 ts f2 hts1 hts2
    · rw [if_neg hskip, if_neg hskip]
      by_cases hat : t.type = "ATKEYWORD"
      · rw [if_pos hat, if_pos hat]
        rcases hrr : read_at_rule t ts with ⟨res, rest⟩
        have hrest : rest.length ≤ ts.length := by
          have h := read_at_rule_rest_le t ts
          rw [hrr] at h
          exact h
        have hm : parse_rules_fuel f1 rest = parse_rules_fuel f2 rest :=
          parse_rules_fuel_mono f1 rest f2
            (le_trans hrest hts1) (le_trans hrest hts2)
        cases res with
        | ok rule =>
          cases hp : parse_at_rule rule with
          | ok b => cases b <;> simp only [hm]
          | error e => simp only [hm]
        | error e => simp only [hm]
      · rw [if_neg hat, if_neg hat]
        rcases hrr : parse_ruleset t ts with ⟨res, rest⟩
        have hrest : rest.length ≤ ts.length := by
          have h := parse_ruleset_rest_le t ts
          rw [hrr] at h
          exact h
        have hm : parse_rules_fuel f1 rest = parse_rules_fuel f2 rest :=
          parse_rules_fuel_mono f1 rest f2
            (le_trans hrest hts1) (le_trans hrest hts2)
        cases res with
        | ok pair =>
          obtain ⟨rule, rule_errors⟩ := pair
          simp only [hm]
        | error err =>
          cases err with
          | parseError e => simp only [hm]
          | stopIteration => rfl
          | unboundLocal => rfl

theorem parse_rules_eq_fuel (l : List Token) (f : Nat) (h : l.length ≤ f) :
    parse_rules l = parse_rules_fuel f l :=
  parse_rules_fuel_mono l.length l f (le_refl _) h

theorem parse_rules_cons_skip (t : Token) (ts : List Token)
    (h : t.type = "S" ∨ t.type = "CDO" ∨ t.type = "CDC") :
    parse_rules (t :: ts) = parse_rules ts := by
  unfold parse_rules
  rw [List.length_cons, parse_rules_fuel, if_pos h]

theorem parse_rules_cons_at_err (t : Token) (ts : List Token)
    (e : ParseError) (rest : List Token)
    (hskip : ¬ (t.type = "S" ∨ t.type = "CDO" ∨ t.type = "CDC"))
    (hat : t.type = "ATKEYWORD")
    (hr : read_at_rule t ts = (Except.error e, rest)) :
    parse_rules (t :: ts) = consError e (parse_rules rest) := by
  have hrest : rest.length ≤ ts.length := by
    have h := read_at_rule_rest_le t ts
    rw [hr] at h
    exact h
  unfold parse_rules
  rw [List.length_cons, parse_rules_fuel, if_neg hskip, if_pos hat, hr]
  simp only [parse_rules_fuel_mono ts.length rest rest.length hrest (le_refl _)]

theorem parse_rules_cons_at_ok (t : Token) (ts : List Token)
    (rule : AtRule) (rest : List Token)
    (hskip : ¬ (t.type = "S" ∨ t.type = "CDO" ∨ t.type = "CDC"))
    (hat : t.type = "ATKEYWORD")
    (hr : read_at_rule t ts = (Except.ok rule, rest)) :
    parse_rules (t :: ts) =
      match parse_at_rule rule with
      | .ok true => parse_rules rest
      | .ok false =>
        consError ⟨rule.line, rule.column, "unknown at-rule: " ++ rule.at_keyword⟩
          (parse_rules rest)
      | .error e => consError e (parse_rules rest) := by
  have hrest : rest.length ≤ ts.length := by
    have h := read_at_rule_rest_le t ts
    rw [hr] at h
    exact h
  unfold parse_rules
  rw [List.length_cons, parse_rules_fuel, if_neg hskip, if_pos hat, hr]
  simp only [parse_rules_fuel_mono ts.length rest rest.length hrest (le_refl _)]

theorem parse_rules_cons_rs_perr (t : Token) (ts : List Token)
    (e : ParseError) (rest : List Token)
    (hskip : ¬ (t.type = "S" ∨ t.type = "CDO" ∨ t.type = "CDC"))
    (hat : ¬ t.type = "ATKEYWORD")
    (hr : parse_ruleset t ts = (Except.error (PyErr.parseError e), rest)) :
    parse_rules (t :: ts) = consError e (parse_rules rest) := by
  have hrest : rest.length ≤ ts.length := by
    have h := parse_ruleset_rest_le t ts
    rw [hr] at h
    exact h
  unfold parse_rules
  rw [List.length_cons, parse_rules_fuel, if_neg hskip, if_neg hat, hr]
  simp only [parse_rules_fuel_mono ts.length rest rest.length hrest (le_refl _)]

theorem read_at_rule_loop_noterm : ∀ (l : List Token) (at_tok : Token)
    (kw : String) (head : List Token) (last : Token),
    (∀ t ∈ l, ¬ (t.type = "\x7b" ∨ t.type = ";")) →
    ∃ lt : Token, read_at_rule_loop at_tok kw head last l =
      (Except.error ⟨lt.line, lt.column, "incomplete at-rule"⟩, [])
  | [], at_tok, kw, head, last, _ => ⟨last, by rw [read_at_rule_loop]⟩
  | t :: ts, at_tok, kw, head, last, h => by
    rw [read_at_rule_loop, if_neg (h t (by simp))]
    by_cases h2 : head.isEmpty ∧ t.type = "S"
    · rw [if_pos h2]
      exact read_at_rule_loop_noterm ts at_tok kw head t
        (fun x hx => h x (by simp [hx]))
    · rw [if_neg h2]
      exact read_at_rule_loop_noterm ts at_tok kw (head ++ [t]) t
        (fun x hx => h x (by simp [hx]))

theorem read_at_rule_loop_term : ∀ (pre : List Token) (at_tok : Token)
    (kw : String) (head : List Token) (last term : Token) (rest : List Token),
    (∀ t ∈ pre, ¬ (t.type = "\x7b" ∨ t.type = ";")) →
    (term.type = "\x7b" ∨ term.type = ";") →
    read_at_rule_loop at_tok kw head last (pre ++ term :: rest) =
      (match validate_any_list
          (head ++ (if head.isEmpty then stripLeadWS pre else pre))
          "at-rule head" with
       | .error e => .error e
       | .ok _ => .ok ⟨kw, head ++ (if head.isEmpty then stripLeadWS pre else pre),
                       (if term.type = "\x7b" then some term else none),
                       at_tok.line, at_tok.column⟩, rest)
  | [], at_tok, kw, head, last, term, rest, _, hterm => by
    rw [List.nil_append, read_at_rule_loop, if_pos hterm]
    have hh : head ++ (if head.isEmpty then stripLeadWS [] else ([] : List Token)) = head := by
      cases h : head.isEmpty <;> simp [stripLeadWS]
    rw [hh]
    cases hv : validate_any_list head "at-rule head" <;> simp [hv]
  | t :: pre, at_tok, kw, head, last, term, rest, h, hterm => by
    rw [List.cons_append, read_at_rule_loop, if_neg (h t (by simp))]
    by_cases h2 : head.isEmpty ∧ t.type = "S"
    · rw [if_pos h2,
        read_at_rule_loop_term pre at_tok kw head t term rest
          (fun x hx => h x (by simp [hx])) hterm]
      have hs : stripLeadWS (t :: pre) = stripLeadWS pre := by
        simp [stripLeadWS, List.dropWhile, h2.2]
      rw [hs]
      simp [h2.1]
    · rw [if_neg h2,
        read_at_rule_loop_term pre at_tok kw (head ++ [t]) t term rest
          (fun x hx => h x (by simp [hx])) hterm]
      have hne : (head ++ [t]).isEmpty = false := by simp
      have hl : (head ++ [t]) ++ (if (head ++ [t]).isEmpty then stripLeadWS pre else pre)
          = head ++ (if head.isEmpty then stripLeadWS (t :: pre) else t :: pre) := by
        rw [hne]
        cases hh : head.isEmpty with
        | true =>
          have ht : ¬ t.type = "S" := fun hS => h2 ⟨hh, hS⟩
          have hb : (t.type == "S") = false := by simp [ht]
          simp [stripLeadWS, List.dropWhile, hb]
        | false => simp
      rw [hl]

theorem read_at_rule_loop_ok_inv : ∀ (l : List Token) (at_tok : Token)
    (kw : String) (head : List Token) (last : Token) (r : AtRule)
    (rest : List Token),
    read_at_rule_loop at_tok kw head last l = (Except.ok r, rest) →
    r.at_keyword = kw ∧ r.line = at_tok.line ∧ r.column = at_tok.column
  | [], at_tok, kw, head, last, r, rest => by
    rw [read_at_rule_loop]
    intro h
    injection h with h1 h2
    exact Except.noConfusion h1
  | t :: ts, at_tok, kw, head, last, r, rest => by
    rw [read_at_rule_loop]
    by_cases h1 : t.type = "\x7b" ∨ t.type = ";"
    · rw [if_pos h1]
      cases hv : validate_any_list head "at-rule head" with
      | error e =>
        intro h
        injection h with ha hb
        exact Except.noConfusion ha
      | ok u =>
        cases u
        intro h
        injection h with ha hb
        injection ha with ha
        rw [← ha]
        exact ⟨rfl, rfl, rfl⟩
    · rw [if_neg h1]
      by_cases h2 : head.isEmpty ∧ t.type = "S"
      · rw [if_pos h2]
        exact read_at_rule_loop_ok_inv ts at_tok kw head t r rest
      · rw [if_neg h2]
        exact read_at_rule_loop_ok_inv ts at_tok kw (head ++ [t]) t r rest

theorem pyLower_data (s : String) :
    (pyLower s).data = s.data.map Char.toLower := rfl

theorem pyLower_head_at (s : String) (h : s.data.head? = some '@') :
    (pyLower s).data.head? = some '@' := by
  rw [pyLower_data, List.head?_map, h]
  decide

theorem pyLower_ne_empty (s : String) (h : s.data ≠ []) : pyLower s ≠ "" := by
  intro hc
  apply h
  have hd : (pyLower s).data = ("" : String).data := by rw [hc]
  rw [pyLower_data] at hd
  exact List.map_eq_nil_iff.mp hd

theorem find_colon_ok_name : ∀ (l : List Token) (p : String) (n last : Token)
    (b : Bool) (d : Declaration),
    find_colon p n last b l = Except.ok d → d.name = p
  | [], p, n, last, b, d => by
    rw [find_colon]
    split <;> (intro h; exact Except.noConfusion h)
  | t :: ts, p, n, last, b, d => by
    rw [find_colon]
    by_cases h1 : t.type = ":"
    · rw [if_pos h1]
      unfold after_colon
      cases hv : parse_value ts with
      | error e => intro h; exact Except.noConfusion h
      | ok vl =>
        cases vl with
        | nil => intro h; exact Except.noConfusion h
        | cons v vs =>
          intro h
          injection h with h
          rw [← h]
    · rw [if_neg h1]
      by_cases h2 : t.type = "S"
      · rw [if_pos h2]
        exact find_colon_ok_name ts p n t true d
      · rw [if_neg h2]
        intro h
        exact Except.noConfusion h

/-! Concrete token streams used by the scenario computations. -/

/-- ctok: a concrete line-1 non-container token. -/
def ctok (ty v : String) (c : Nat) : Token := .mk ty v v [] 1 c

/-- charsetTokens: the grouped token stream of the source text
at-charset-space-quoted-UTF-8-semicolon starting at 1:1. -/
def charsetTokens : List Token :=
  [Token.mk "ATKEYWORD" "@charset" "@charset" [] 1 1,
   ctok "S" " " 9,
   Token.mk "STRING" "UTF-8" "\"UTF-8\"" [] 1 10,
   ctok ";" ";" 19]

/-- scenarioC_tokens: the grouped token stream of Scenario C, the source
text a-brace-color-red-semi-semi-invalid-empty-font-12px-brace. -/
def scenarioC_tokens : List Token :=
  [ctok "IDENT" "a" 1, ctok "S" " " 2,
   Token.mk "\x7b" "" "" [
     ctok "S" " " 4, ctok "IDENT" "color" 5, ctok ":" ":" 10, ctok "S" " " 11,
     ctok "IDENT" "red" 12, ctok ";" ";" 15, ctok ";" ";" 16, ctok "S" " " 17,
     ctok "IDENT" "invalid" 18, ctok ":" ":" 25, ctok "S" " " 26,
     ctok ";" ";" 27, ctok "S" " " 28, ctok "IDENT" "font" 29,
     ctok ":" ":" 33, ctok "S" " " 34, ctok "DIMENSION" "12px" 35,
     ctok "S" " " 39] 1 3]

/-! Claim theorems. -/

/-- Claim C1 (code bug): the claim says no exception ever escapes the
top-level parse_stylesheet and parse_style_attr calls.  The code violates
it: for the stream of a-brace-color-brace (a declaration whose tokens end
right after the property name), parse_declaration runs its colon-scanning
for-loop zero times and the for-else branch reads the never-assigned loop
variable, so an UnboundLocalError (not a ParseError) escapes both entry
points. -/
theorem claim_C1_exception_escapes :
    parse_stylesheet
      [ctok "IDENT" "a" 1, Token.mk "\x7b" "" "" [ctok "IDENT" "color" 3] 1 2]
      = Except.error PyErr.unboundLocal ∧
    parse_style_attr [ctok "IDENT" "color" 1] = Except.error PyErr.unboundLocal :=
  ⟨rfl, rfl⟩

/-- Claim C2 (counterexample): for the exact Scenario A stream, the
stylesheet that comes back has zero rules and zero errors: the charset
handler claims the rule but never appends it, so the result does not
contain one AtRule as the claim states. -/
theorem claim_C2_counterexample :
    parse_stylesheet charsetTokens = Except.ok ⟨[], []⟩ := by rfl

/-- Claim C2 (amended): parsing the Scenario A stream yields zero errors
and the at-rule is claimed by the charset handler, but the claimed rule is
not appended to the rules list (the result is empty); any deviation from
the 1:1 position or from the one-double-quoted-string-no-body head makes
the handler raise the corresponding ParseError, and an at-charset rule is
never left unhandled (never reported as an unknown at-rule). -/
theorem claim_C2_charset_claimed :
    (parse_rules charsetTokens = Except.ok ([], [])) ∧
    (∀ r : AtRule, r.at_keyword = "@charset" → ¬ (r.line = 1 ∧ r.column = 1) →
       parse_at_rule r = Except.error
         ⟨r.line, r.column, "@charset rule not at the beginning of the stylesheet"⟩) ∧
    (∀ r : AtRule, r.at_keyword = "@charset" → r.line = 1 → r.column = 1 →
       charsetHeadOK r = false →
       parse_at_rule r = Except.error ⟨1, 1, "invalid @charset rule"⟩) ∧
    (∀ r : AtRule, r.at_keyword = "@charset" → parse_at_rule r ≠ Except.ok false) := by
  refine ⟨by rfl, ?_, ?_, ?_⟩
  · intro r h1 h2
    unfold parse_at_rule
    rw [if_pos h1, if_neg h2]
  · intro r h1 hl hc hhead
    unfold parse_at_rule
    rw [if_pos h1, if_pos ⟨hl, hc⟩, if_neg (by simp [hhead]), hl, hc]
  · intro r h1
    unfold parse_at_rule
    rw [if_pos h1]
    split
    · split
      · simp
      · simp
    · simp

/-- Claim C2 (witness): the deviation branch at a concrete rule: an
at-charset rule at 2:1 raises the not-at-the-beginning ParseError. -/
theorem claim_C2_witness :
    parse_at_rule ⟨"@charset", [Token.mk "STRING" "UTF-8" "\"UTF-8\"" [] 1 10], none, 2, 1⟩
      = Except.error ⟨2, 1, "@charset rule not at the beginning of the stylesheet"⟩ :=
  claim_C2_charset_claimed.2.1
    ⟨"@charset", [Token.mk "STRING" "UTF-8" "\"UTF-8\"" [] 1 10], none, 2, 1⟩
    rfl (by simp)

/-- Claim C3 (counterexample): on the empty token sequence
parse_declaration does not fail with a ParseError at all: the next() call
raises StopIteration (the code documents that at least one token is
required). -/
theorem claim_C3_counterexample :
    parse_declaration [] = Except.error PyErr.stopIteration := rfl

/-- Claim C3 (amended): for a nonempty token sequence, a non-identifier
first token fails with exactly the expected-a-property-name ParseError at
that token (and no other kind of failure), and when the first token is an
identifier any returned declaration carries its value lower-cased as the
property name; the empty sequence raises StopIteration instead. -/
theorem claim_C3_property_name (t : Token) (ts : List Token) :
    (t.type ≠ "IDENT" →
       parse_declaration (t :: ts) = Except.error (PyErr.parseError
         ⟨t.line, t.column, "expected a property name, got " ++ t.type⟩)) ∧
    (t.type = "IDENT" → ∀ d : Declaration,
       parse_declaration (t :: ts) = Except.ok d → d.name = pyLower t.value) := by
  constructor
  · intro h
    rw [parse_declaration, if_neg h]
  · intro h d hd
    rw [parse_declaration, if_pos h] at hd
    exact find_colon_ok_name (ts) (pyLower t.value) t t false d hd

/-- Claim C3 (witness): a NUMBER first token at a concrete input fails
with the expected-a-property-name error. -/
theorem claim_C3_witness :
    parse_declaration [ctok "NUMBER" "12" 1] =
      Except.error (PyErr.parseError
        ⟨1, 1, "expected a property name, got NUMBER"⟩) :=
  (claim_C3_property_name (ctok "NUMBER" "12" 1) []).1 (by decide)

/-- Claim C4 (confirmed): validate_any succeeds exactly on the tokens the
specification describes (the eleven basic types, or a function,
parenthesized-group or bracketed-group container whose content recursively
validates), and every failure reports a reason built from the failing
token type, tagged unmatched for a closing delimiter and unexpected
otherwise. -/
theorem claim_C4_validate_any_spec (t : Token) (ctx : String) :
    ((validate_any t ctx = Except.ok ()) ↔ specAnyOK t = true) ∧
    (∀ e : ParseError, validate_any t ctx = Except.error e →
       ∃ fty fctx, anyBasic fty = false ∧ isContainerType fty = false ∧
         e.reason = (if closerType fty then "unmatched" else "unexpected")
           ++ " " ++ fty ++ " token in " ++ fctx) :=
  ⟨validate_any_ok_iff t ctx, fun e h => validate_any_err t ctx e h⟩

/-- Claim C4 (witness): a closing brace token inside a selector context
fails, and its reason carries the unmatched tag. -/
theorem claim_C4_witness :
    specAnyOK (Token.mk "\x7d" "\x7d" "\x7d" [] 1 2) = false ∧
    (∃ fty fctx, anyBasic fty = false ∧ isContainerType fty = false ∧
       (ParseError.mk 1 2 "unmatched \x7d token in selector").reason =
         (if closerType fty then "unmatched" else "unexpected")
           ++ " " ++ fty ++ " token in " ++ fctx) := by
  constructor
  · rfl
  · exact (claim_C4_validate_any_spec (Token.mk "\x7d" "\x7d" "\x7d" [] 1 2) "selector").2
      ⟨1, 2, "unmatched \x7d token in selector"⟩ rfl

/-- Claim C5 (confirmed): when read_at_rule or parse_ruleset fails with a
ParseError, the driver loop catches it, appends it ahead of the errors
found later, keeps every rule produced from the remaining stream (no
other rule is dropped), and resumes scanning at the unconsumed remainder
returned by the failing reader (the tokens after the consumed
terminator). -/
theorem claim_C5_error_recovery (t : Token) (ts : List Token) (e : ParseError)
    (rest : List Token) (rules : List Rule) (errors : List ParseError)
    (hskip : ¬ (t.type = "S" ∨ t.type = "CDO" ∨ t.type = "CDC"))
    (hrest : parse_rules rest = Except.ok (rules, errors)) :
    (t.type = "ATKEYWORD" → read_at_rule t ts = (Except.error e, rest) →
       parse_rules (t :: ts) = Except.ok (rules, e :: errors)) ∧
    (¬ t.type = "ATKEYWORD" →
       parse_ruleset t ts = (Except.error (PyErr.parseError e), rest) →
       parse_rules (t :: ts) = Except.ok (rules, e :: errors)) := by
  constructor
  · intro hat hr
    rw [parse_rules_cons_at_err t ts e rest hskip hat hr, hrest]
    rfl
  · intro hat hr
    rw [parse_rules_cons_rs_perr t ts e rest hskip hat hr, hrest]
    rfl

/-- Claim C5 (witness): a lone at-keyword token fails read_at_rule with
the incomplete-at-rule ParseError, which the driver records while
returning normally. -/
theorem claim_C5_witness :
    parse_rules [Token.mk "ATKEYWORD" "@foo" "@foo" [] 1 1] =
      Except.ok ([], [⟨1, 1, "incomplete at-rule"⟩]) :=
  (claim_C5_error_recovery (Token.mk "ATKEYWORD" "@foo" "@foo" [] 1 1) []
    ⟨1, 1, "incomplete at-rule"⟩ [] [] [] (by decide) rfl).1 rfl rfl

/-- Claim C6 (confirmed): parse_declaration_list splits only at top-level
semicolon tokens (container content is never inspected, so the two halves
around any semicolon token are parsed independently and their declarations
and errors concatenated), whitespace-only or empty segments contribute no
declaration and no error, and the Scenario C stream yields one RuleSet
with exactly the color and font declarations plus the single
expected-a-property-value error. -/
theorem claim_C6_declaration_splitting :
    (∀ (a : List Token) (sep : Token) (b : List Token)
       (d1 d2 : List Declaration) (e1 e2 : List ParseError),
       sep.type = ";" →
       parse_declaration_list a = Except.ok (d1, e1) →
       parse_declaration_list b = Except.ok (d2, e2) →
       parse_declaration_list (a ++ sep :: b) = Except.ok (d1 ++ d2, e1 ++ e2)) ∧
    (∀ l : List Token, (∀ t ∈ l, t.type = "S") →
       parse_declaration_list l = Except.ok ([], [])) ∧
    (parse_rules scenarioC_tokens = Except.ok
       ([Rule.ruleSet ⟨Token.mk "SELECTOR" "" ""
            [ctok "IDENT" "a" 1, ctok "S" " " 2] 1 1,
          [⟨"color", Token.mk "VALUES" "" "" [ctok "IDENT" "red" 12] 1 12, 1, 5⟩,
           ⟨"font", Token.mk "VALUES" "" "" [ctok "DIMENSION" "12px" 35] 1 35, 1, 29⟩],
          1, 1⟩],
        [⟨1, 25, "expected a property value"⟩])) :=
  ⟨fun a sep b d1 d2 e1 e2 hsep h1 h2 =>
     parse_declaration_list_sep a sep b d1 d2 e1 e2 hsep h1 h2,
   fun l h => parse_declaration_list_all_ws l h,
   by rfl⟩

/-- Claim C6 (witness): one valid declaration followed by a semicolon and
trailing white space parses to exactly that declaration with no error. -/
theorem claim_C6_witness :
    parse_declaration_list
      [ctok "IDENT" "a" 1, ctok ":" ":" 2, ctok "IDENT" "b" 3,
       ctok ";" ";" 4, ctok "S" " " 5] =
      Except.ok ([⟨"a", Token.mk "VALUES" "" "" [ctok "IDENT" "b" 3] 1 3, 1, 1⟩], []) := by
  have h := claim_C6_declaration_splitting.1
    [ctok "IDENT" "a" 1, ctok ":" ":" 2, ctok "IDENT" "b" 3]
    (ctok ";" ";" 4) [ctok "S" " " 5]
    [⟨"a", Token.mk "VALUES" "" "" [ctok "IDENT" "b" 3] 1 3, 1, 1⟩] []
    [] [] rfl (by rfl)
    (claim_C6_declaration_splitting.2.1 [ctok "S" " " 5] (by decide))
  simpa using h

/-- Claim C7 (confirmed): read_at_rule consumes exactly through the first
top-level brace block or semicolon and returns the rest of the stream;
white space immediately after the at-keyword is dropped while white space
after the first kept head token is retained; the whole head must pass
validate_any or the entire at-rule fails with that error (no partial
result); the body is the brace container on a brace and none on a
semicolon; and an exhausted stream fails with incomplete-at-rule. -/
theorem claim_C7_read_at_rule_spec (at_tok : Token) :
    (∀ (pre : List Token) (term : Token) (rest : List Token),
       (∀ t ∈ pre, ¬ (t.type = "\x7b" ∨ t.type = ";")) →
       (term.type = "\x7b" ∨ term.type = ";") →
       read_at_rule at_tok (pre ++ term :: rest) =
         (match validate_any_list (stripLeadWS pre) "at-rule head" with
          | .error e => .error e
          | .ok _ => .ok ⟨pyLower at_tok.value, stripLeadWS pre,
                          (if term.type = "\x7b" then some term else none),
                          at_tok.line, at_tok.column⟩, rest)) ∧
    (∀ l : List Token, (∀ t ∈ l, ¬ (t.type = "\x7b" ∨ t.type = ";")) →
       ∃ lt : Token, read_at_rule at_tok l =
         (Except.error ⟨lt.line, lt.column, "incomplete at-rule"⟩, [])) := by
  constructor
  · intro pre term rest hpre hterm
    unfold read_at_rule
    rw [read_at_rule_loop_term pre at_tok (pyLower at_tok.value) [] at_tok
      term rest hpre hterm]
    simp [stripLeadWS]
  · intro l hl
    unfold read_at_rule
    exact read_at_rule_loop_noterm l at_tok (pyLower at_tok.value) [] at_tok hl

/-- Claim C7 (witness): at-Media followed by space, print, space and a
semicolon: the leading space is dropped, the interior space retained, the
at-keyword lower-cased, the body none, and the stream after the semicolon
is returned unconsumed. -/
theorem claim_C7_witness :
    read_at_rule (Token.mk "ATKEYWORD" "@Media" "@Media" [] 1 1)
      [ctok "S" " " 7, ctok "IDENT" "print" 8, ctok "S" " " 13,
       ctok ";" ";" 14, ctok "IDENT" "x" 15] =
      (Except.ok ⟨"@media", [ctok "IDENT" "print" 8, ctok "S" " " 13], none, 1, 1⟩,
       [ctok "IDENT" "x" 15]) := by
  have h := (claim_C7_read_at_rule_spec (Token.mk "ATKEYWORD" "@Media" "@Media" [] 1 1)).1
    [ctok "S" " " 7, ctok "IDENT" "print" 8, ctok "S" " " 13] (ctok ";" ";" 14)
    [ctok "IDENT" "x" 15] (by decide) (by decide)
  exact h.trans (by rfl)

/-- Claim C8 (confirmed): a syntactically valid single declaration of the
shape name-colon-value-semicolon parses to exactly one Declaration whose
name is the identifier value lower-cased and whose VALUES container holds
the input value tokens with outer white space trimmed and interior white
space preserved in order, positioned at the first value token. -/
theorem claim_C8_round_trip (name colon semi : Token) (ws vals : List Token)
    (v : Token) (vs : List Token)
    (hname : name.type = "IDENT") (hws : ∀ t ∈ ws, t.type = "S")
    (hcolon : colon.type = ":") (hsemi : semi.type = ";")
    (hnosemi : ∀ t ∈ vals, t.type ≠ ";")
    (hval : ∀ t ∈ vals, valueTokenOK t = true)
    (htrim : trimWS vals = v :: vs) :
    parse_declaration_list (name :: (ws ++ colon :: (vals ++ [semi]))) =
      Except.ok ([⟨pyLower name.value,
                  Token.mk "VALUES" "" "" (v :: vs) v.line v.column,
                  name.line, name.column⟩], []) := by
  have hsplit : split_parts (name :: (ws ++ colon :: (vals ++ [semi]))) []
      = [name :: (ws ++ colon :: vals)] := by
    have hlist : name :: (ws ++ colon :: (vals ++ [semi]))
        = (name :: (ws ++ colon :: vals)) ++ semi :: [] := by simp
    rw [hlist, split_parts_sep (name :: (ws ++ colon :: vals)) semi [] [] hsemi]
    have h2 : split_parts ([] : List Token) [] = [] := by simp [split_parts]
    rw [h2, List.append_nil]
    rw [split_parts, if_neg (by simp [hname]), if_neg (by simp [hname])]
    rw [split_parts_nosemi (ws ++ colon :: vals) ([] ++ [name])
      (by
        intro x hx
        rcases List.mem_append.mp hx with h | h
        · rw [hws x h]; simp
        · rcases List.mem_cons.mp h with rfl | h
          · rw [hcolon]; simp
          · exact hnosemi x h)
      (by simp)]
    simp
  unfold parse_declaration_list
  rw [hsplit, process_parts]
  rw [parse_declaration, if_pos hname]
  rw [find_colon_ws ws hws (pyLower name.value) name name false colon vals hcolon]
  unfold after_colon
  rw [parse_value_all_ok vals hval, htrim]
  rfl

/-- Claim C8 (witness): Color-colon-space-red-space-semicolon yields the
single declaration color with value content exactly the red token. -/
theorem claim_C8_witness :
    parse_declaration_list
      [ctok "IDENT" "Color" 1, ctok "S" " " 6, ctok ":" ":" 7, ctok "S" " " 8,
       ctok "IDENT" "red" 9, ctok "S" " " 12, ctok ";" ";" 13] =
      Except.ok ([⟨"color", Token.mk "VALUES" "" "" [ctok "IDENT" "red" 9] 1 9, 1, 1⟩], []) := by
  have h := claim_C8_round_trip (ctok "IDENT" "Color" 1) (ctok ":" ":" 7)
    (ctok ";" ";" 13) [ctok "S" " " 6]
    [ctok "S" " " 8, ctok "IDENT" "red" 9, ctok "S" " " 12]
    (ctok "IDENT" "red" 9) []
    rfl (by decide) rfl rfl (by decide) (by decide) (by rfl)
  exact h.trans (by rfl)

/-- Claim C9 (code bug): the claim says a block with no preceding selector
tokens always yields a RuleSet with an empty synthetic selector container.
The empty selector is indeed accepted with no selector-level error (second
conjunct), but the claim fails as stated: with block content color (a
declaration cut off after its name) the parse_declaration slip raises
UnboundLocalError, so parse_ruleset aborts instead of returning a RuleSet
(first conjunct evaluates the failing input). -/
theorem claim_C9_empty_selector :
    (parse_ruleset (Token.mk "\x7b" "" "" [ctok "IDENT" "color" 2] 1 1) [] =
       (Except.error PyErr.unboundLocal, [])) ∧
    (∀ (first : Token) (ts : List Token) (ds : List Declaration)
       (es : List ParseError), first.type = "\x7b" →
       parse_declaration_list first.content = Except.ok (ds, es) →
       parse_ruleset first ts =
         (Except.ok (⟨Token.mk "SELECTOR" "" "" [] first.line first.column, ds,
                      first.line, first.column⟩, es), ts)) := by
  constructor
  · rfl
  · intro first ts ds es hb hd
    unfold parse_ruleset
    rw [parse_ruleset_loop, if_pos hb]
    rw [show validate_any_list [] "selector" = Except.ok () from rfl]
    simp [hd]

/-- Claim C9 (witness): an empty block with no selector yields the empty
selector container and no declarations or errors. -/
theorem claim_C9_witness :
    parse_ruleset (Token.mk "\x7b" "" "" [] 1 1) [] =
      (Except.ok (⟨Token.mk "SELECTOR" "" "" [] 1 1, [], 1, 1⟩, []), []) :=
  claim_C9_empty_selector.2 (Token.mk "\x7b" "" "" [] 1 1) [] [] [] rfl rfl

/-- Claim C10 (confirmed): the at_keyword attribute discriminates the two
rule kinds: it is none for every RuleSet and some keyword for every
AtRule; and every AtRule produced by read_at_rule from an at-keyword token
whose value starts with the at sign (as the external tokenizer guarantees)
carries that value lower-cased: a non-empty string still starting with the
at sign. -/
theorem claim_C10_at_keyword_discriminator :
    (∀ rs : RuleSet, Rule.at_keyword (Rule.ruleSet rs) = none) ∧
    (∀ ar : AtRule, Rule.at_keyword (Rule.atRule ar) = some ar.at_keyword) ∧
    (∀ (at_tok : Token) (ts : List Token) (r : AtRule) (rest : List Token),
       at_tok.value.data.head? = some '@' →
       read_at_rule at_tok ts = (Except.ok r, rest) →
       r.at_keyword = pyLower at_tok.value ∧
       r.at_keyword.data.head? = some '@' ∧ r.at_keyword ≠ "") := by
  refine ⟨fun rs => rfl, fun ar => rfl, ?_⟩
  intro at_tok ts r rest hat hr
  unfold read_at_rule at hr
  have hkw := read_at_rule_loop_ok_inv ts at_tok (pyLower at_tok.value) []
    at_tok r rest hr
  refine ⟨hkw.1, ?_, ?_⟩
  · rw [hkw.1]
    exact pyLower_head_at at_tok.value hat
  · rw [hkw.1]
    apply pyLower_ne_empty
    intro hc
    rw [hc] at hat
    exact Option.noConfusion hat

/-- Claim C10 (witness): reading at-Page terminated by a semicolon
produces the lower-cased non-empty keyword at-page. -/
theorem claim_C10_witness :
    (AtRule.mk "@page" [] none 1 1).at_keyword
        = pyLower (Token.mk "ATKEYWORD" "@Page" "@Page" [] 1 1).value ∧
    (AtRule.mk "@page" [] none 1 1).at_keyword.data.head? = some '@' ∧
    (AtRule.mk "@page" [] none 1 1).at_keyword ≠ "" :=
  claim_C10_at_keyword_discriminator.2.2
    (Token.mk "ATKEYWORD" "@Page" "@Page" [] 1 1) [ctok ";" ";" 7]
    (AtRule.mk "@page" [] none 1 1) [] (by decide) (by rfl)
